import Mathlib

/-
Verification development for the backtest core of the repository
(src/backtest/strategy.py, src/backtest/run_backtest.py, src/backtest/datafeed.py,
src/backtest/config.py).  Prices and cash are modelled as rationals; the
per-bar decision logic is translated directly from TpSlHoldStrategy.next,
while the order-execution engine (fills and notifications), which lives in
the external backtrader library and not in this repository, is modelled
from the specification: entries fill at the next bar open, exits fill at
the trigger price on the triggering bar, the completed trade is appended
with the recorded exit reason and the position state is then reset.
-/

namespace Backtest

/-- One daily bar: open/high/low/close/volume, as consumed by the strategy. -/
structure Bar where
  bopen : ℚ
  high : ℚ
  low : ℚ
  close : ℚ
  volume : ℚ
deriving DecidableEq

/-- Strategy parameters, from TpSlHoldStrategy.params in src/backtest/strategy.py
(take_profit > 0, stop_loss < 0, max_hold_days >= 1, stake shares per entry). -/
structure Params where
  take_profit : ℚ := 0.03
  stop_loss : ℚ := -0.05
  max_hold_days : ℤ := 10
  stake : ℤ := 100
deriving DecidableEq

/-- A completed round-trip trade, as recorded by TpSlHoldStrategy.notify_trade
(fields pnl, pnlcomm, size, price, value, commission, exit_reason of the
appended dict; the dt field is omitted since dates play no role in the
claims).  The extra exit_price field follows the Trade record of the
specification (section 3) and holds the exit fill price used by the
spec-modelled execution engine. -/
structure Trade where
  pnl : ℚ
  pnlcomm : ℚ
  size : ℤ
  price : ℚ
  value : ℚ
  commission : ℚ
  exit_reason : String
  exit_price : ℚ
deriving DecidableEq

/-- The mutable state of one simulation run: the strategy fields of
TpSlHoldStrategy (order pending flag, entry_price, hold_bars, exit_reason,
trades ledger) together with the broker state (cash, position size) and the
equity curve collected by the EquityObserver in run_backtest. -/
structure StratState where
  order : Bool
  entry_price : Option ℚ
  hold_bars : ℕ
  exit_reason : Option String
  position : ℤ
  cash : ℚ
  trades : List Trade
  equity : List ℚ
deriving DecidableEq

/-- Initial state of a run: flat, no pending order, empty ledger and curve
(TpSlHoldStrategy.init together with broker.setcash). -/
def initState (cash : ℚ) : StratState :=
  { order := false, entry_price := none, hold_bars := 0, exit_reason := none,
    position := 0, cash := cash, trades := [], equity := [] }

/-- Modelled from the spec: the broker fill of a pending market buy order at
the current bar open (the backtrader matching engine is not part of this
repository).  On completion, notify_order (src/backtest/strategy.py) stores
the executed price as entry_price, resets hold_bars to 0 and clears the
pending order.  Commission is proportional to notional (price times size
times rate). -/
def execBuy (p : Params) (comm : ℚ) (bar : Bar) (s : StratState) : StratState :=
  if s.order then
    { s with order := false,
             position := p.stake,
             cash := s.cash - bar.bopen * (p.stake : ℚ) - bar.bopen * (p.stake : ℚ) * comm,
             entry_price := some bar.bopen,
             hold_bars := 0 }
  else s

/-- The trade record appended by notify_trade: gross pnl, pnl net of the
entry and exit commissions, size, entry price, entry notional, total
commission, and the recorded exit reason (self.exit_reason or the
placeholder when unset). -/
def mkTrade (comm : ℚ) (entry pr : ℚ) (size : ℤ) (reason : Option String) : Trade :=
  let pnl := (pr - entry) * (size : ℚ)
  let commission := entry * (size : ℚ) * comm + pr * (size : ℚ) * comm
  { pnl := pnl,
    pnlcomm := pnl - commission,
    size := size,
    price := entry,
    value := entry * (size : ℚ),
    commission := commission,
    exit_reason := reason.getD ("unknown"),
    exit_price := pr }

/-- Modelled from the spec: the exit fill at the trigger price decided by the
strategy (section 4.2 of the specification: append the Trade to the ledger
using the recorded reason, then reset the position state to flat).  The
sell proceeds net of commission are credited to cash. -/
def sellFill (comm : ℚ) (entry pr : ℚ) (s : StratState) : StratState :=
  let t := mkTrade comm entry pr s.position s.exit_reason
  { s with cash := s.cash + pr * (s.position : ℚ) - pr * (s.position : ℚ) * comm,
           position := 0,
           trades := s.trades ++ [t],
           entry_price := none,
           hold_bars := 0,
           exit_reason := none }

/-- TpSlHoldStrategy.next (src/backtest/strategy.py): skip while an order is
pending; buy stake shares when flat; otherwise increment hold_bars, apply
the defensive entry_price fallback to the bar close, and evaluate the exit
checks in the fixed order stop-loss, take-profit, max-hold. -/
def strategyNext (p : Params) (comm : ℚ) (bar : Bar) (s : StratState) : StratState :=
  if s.order then s
  else if s.position = 0 then { s with order := true }
  else
    let held := { s with hold_bars := s.hold_bars + 1 }
    let entry := held.entry_price.getD bar.close
    let held2 := { held with entry_price := some entry }
    let stop_price := entry * (1 + p.stop_loss)
    let take_price := entry * (1 + p.take_profit)
    if bar.low ≤ stop_price then
      sellFill comm entry stop_price { held2 with exit_reason := some ("stop_loss") }
    else if take_price ≤ bar.high then
      sellFill comm entry take_price { held2 with exit_reason := some ("take_profit") }
    else if p.max_hold_days ≤ (held2.hold_bars : ℤ) then
      sellFill comm entry bar.close { held2 with exit_reason := some ("max_hold_days") }
    else held2

/-- One simulated bar: execute any pending buy at the bar open, run the
strategy decision logic, then sample the portfolio value (cash plus
position marked at the bar close) onto the equity curve. -/
def stepBar (p : Params) (comm : ℚ) (bar : Bar) (s : StratState) : StratState :=
  let s1 := execBuy p comm bar s
  let s2 := strategyNext p comm bar s1
  { s2 with equity := s2.equity ++ [s2.cash + (s2.position : ℚ) * bar.close] }

/-- The whole single-pass simulation: fold the per-bar step over the price
series from the initial state. -/
def simulate (p : Params) (comm : ℚ) (cash : ℚ) (bars : List Bar) : StratState :=
  bars.foldl (fun s b => stepBar p comm b s) (initState cash)

/-- The running-peak loop body of calc_max_drawdown, from
run_backtest.py: update the peak, compute the drawdown of the current
sample against the peak, and keep the most negative drawdown. -/
def maxDrawdownLoop : List ℚ → ℚ → ℚ → ℚ
  | [], _, max_dd => max_dd
  | v :: rest, peak, max_dd =>
    let peak2 := if peak < v then v else peak
    let dd := (v - peak2) / peak2
    let max_dd2 := if dd < max_dd then dd else max_dd
    maxDrawdownLoop rest peak2 max_dd2

/-- calc_max_drawdown (run_backtest.py): 0 for the empty curve, otherwise a
single left-to-right pass with the peak initialised to the first sample and
the accumulator initialised to 0. -/
def calc_max_drawdown (equity : List ℚ) : ℚ :=
  match equity with
  | [] => 0
  | v :: rest => maxDrawdownLoop (v :: rest) v 0

/-- Number of closed trades in the ledger (run_backtest.py, n_trades). -/
def trade_count (trades : List Trade) : ℕ := trades.length

/-- Win rate (run_backtest.py): the count of trades with strictly positive
pnl net of commission over the number of trades, or 0 when there are no
trades. -/
def win_rate (trades : List Trade) : ℚ :=
  let n_trades := trades.length
  let n_win := trades.countP (fun t => decide (0 < t.pnlcomm))
  if n_trades ≠ 0 then (n_win : ℚ) / (n_trades : ℚ) else 0

/-- Python str.strip as used by normalize_symbol: drop whitespace from both
ends of the string. -/
def pyStrip (s : String) : String :=
  String.mk (((s.data.dropWhile Char.isWhitespace).reverse.dropWhile Char.isWhitespace).reverse)

/-- Whether a year is a leap year (Gregorian rule, as in Python datetime). -/
def isLeapYear (y : ℕ) : Bool :=
  (y % 4 = 0 && y % 100 ≠ 0) || y % 400 = 0

/-- Days in a month of a given year (Python datetime calendar). -/
def daysInMonth (y m : ℕ) : ℕ :=
  if m = 2 then (if isLeapYear y then 29 else 28)
  else if m = 4 ∨ m = 6 ∨ m = 9 ∨ m = 11 then 30
  else 31

/-- Split a character list on every dash, keeping empty groups (the
character-level counterpart of splitting the date string on the dashes). -/
def splitDash : List Char → List (List Char)
  | [] => [[]]
  | c :: rest =>
    let r := splitDash rest
    if c = '-' then [] :: r
    else
      match r with
      | [] => [[c]]
      | g :: gs => (c :: g) :: gs

/-- Decimal value of a non-empty all-digit character group, none otherwise. -/
def parseNatDigits (cs : List Char) : Option ℕ :=
  if cs ≠ [] ∧ cs.all Char.isDigit then
    some (cs.foldl (fun acc c => acc * 10 + (c.toNat - 48)) 0)
  else none

/-- datetime.strptime with format YYYY-MM-DD as used by validate_params and
validate_dates: exactly three dash-separated all-digit fields, a 4-digit
year, a 1-or-2-digit month in 1..12, a 1-or-2-digit day valid for the
month, and a year accepted by datetime.date (at least 1).  Returns none
exactly when Python raises ValueError. -/
def parseDate (s : String) : Option (ℕ × ℕ × ℕ) :=
  match splitDash s.data with
  | [ys, ms, ds] =>
    match parseNatDigits ys, parseNatDigits ms, parseNatDigits ds with
    | some y, some m, some d =>
      if ys.length = 4 ∧ (ms.length = 1 ∨ ms.length = 2) ∧ (ds.length = 1 ∨ ds.length = 2)
          ∧ 1 ≤ y ∧ 1 ≤ m ∧ m ≤ 12 ∧ 1 ≤ d ∧ d ≤ daysInMonth y m then
        some (y, m, d)
      else none
    | _, _, _ => none
  | _ => none

/-- Strict calendar-date ordering on (year, month, day) triples. -/
def dateLt (a b : ℕ × ℕ × ℕ) : Bool :=
  a.1 < b.1 || (a.1 = b.1 && (a.2.1 < b.2.1 || (a.2.1 = b.2.1 && a.2.2 < b.2.2)))

/-- Whether an Except value is a success. -/
def isOkE {α : Type} : Except String α → Bool
  | Except.ok _ => true
  | Except.error _ => false

/-- validate_params (run_backtest.py): reject non-positive take_profit,
non-negative stop_loss, max_hold_days outside 1..200, non-positive cash,
unparseable dates, and start_date not strictly before end_date; otherwise
accept. -/
def validate_params (take_profit stop_loss : ℚ) (max_hold_days : ℤ) (cash : ℚ)
    (start_date end_date : String) : Except String Unit :=
  if take_profit ≤ 0 then Except.error ("take_profit must be > 0")
  else if 0 ≤ stop_loss then Except.error ("stop_loss must be < 0")
  else if ¬ (1 ≤ max_hold_days ∧ max_hold_days ≤ 200) then
    Except.error ("max_hold_days must be in 1..200")
  else if cash ≤ 0 then Except.error ("cash must be > 0")
  else
    match parseDate start_date, parseDate end_date with
    | some s, some e =>
      if dateLt s e then Except.ok ()
      else Except.error ("start_date must be before end_date")
    | _, _ => Except.error ("date format must be YYYY-MM-DD")

/-- normalize_symbol (datafeed.py): strip the symbol and reject it unless
the result is exactly six decimal digits; return the stripped symbol. -/
def normalize_symbol (symbol : String) : Except String String :=
  let s := pyStrip symbol
  if s.length ≠ 6 ∨ ¬ (s.data.all Char.isDigit) then
    Except.error ("symbol must be 6 digits")
  else Except.ok s

/-- validate_dates (datafeed.py): parse both dates and require strict
ordering, with the same errors as validate_params. -/
def validate_dates (start_date end_date : String) : Except String Unit :=
  match parseDate start_date, parseDate end_date with
  | some s, some e =>
    if dateLt s e then Except.ok ()
    else Except.error ("start_date must be before end_date")
  | _, _ => Except.error ("date format must be YYYY-MM-DD")

/-- Modelled from the spec: the typed outcome of one data-provider attempt
(section 9 of the specification), standing for the pandas calls of
load_tushare_daily / load_akshare_daily which are external I/O.  ok with an
empty list is an empty dataframe or a None result; err is a raised
exception whose message becomes last_err. -/
inductive ProviderResult where
  | ok (bars : List Bar)
  | err (msg : String)
deriving DecidableEq

/-- Final failure of load_a_share_daily: re-raise the last provider error
when there was one, otherwise report that only empty data came back. -/
def finalErr (last_err : Option String) : Except String (List Bar × String) :=
  match last_err with
  | some m => Except.error ("data fetch failed: " ++ m)
  | none => Except.error ("data fetch failed: empty data")

/-- The akshare attempt of load_a_share_daily: applicable when datasource is
auto or akshare; a non-empty result is returned with tag akshare, an empty
result falls through, and a failure replaces last_err. -/
def akshareStep (datasource : String) (akshareResult : ProviderResult)
    (last_err : Option String) : Except String (List Bar × String) :=
  if datasource = "auto" ∨ datasource = "akshare" then
    match akshareResult with
    | ProviderResult.ok bars =>
      if bars ≠ [] then Except.ok (bars, "akshare") else finalErr last_err
    | ProviderResult.err m => finalErr (some m)
  else finalErr last_err

/-- The tushare attempt of load_a_share_daily: applicable when datasource is
auto or tushare; a missing token is fatal only when tushare is forced,
otherwise the attempt is skipped; a non-empty result is returned with tag
tushare, an empty result falls through to akshare, and a failure records
last_err before falling through. -/
def tushareStep (datasource : String) (tushare_token : Option String)
    (tushareResult akshareResult : ProviderResult) : Except String (List Bar × String) :=
  match tushare_token with
  | none =>
    if datasource = "tushare" then
      Except.error ("datasource tushare requires a tushare_token")
    else akshareStep datasource akshareResult none
  | some _tok =>
    match tushareResult with
    | ProviderResult.ok bars =>
      if bars ≠ [] then Except.ok (bars, "tushare")
      else akshareStep datasource akshareResult none
    | ProviderResult.err m => akshareStep datasource akshareResult (some m)

/-- load_a_share_daily (datafeed.py): normalize the symbol and validate the
dates, then try tushare (when applicable), then akshare, returning the
first non-empty series tagged with its source, and raising when every
applicable provider returned empty data or failed. -/
def load_a_share_daily (symbol start_date end_date : String) (datasource : String)
    (tushare_token : Option String) (tushareResult akshareResult : ProviderResult) :
    Except String (List Bar × String) :=
  match normalize_symbol symbol with
  | Except.error e => Except.error e
  | Except.ok _s =>
    match validate_dates start_date end_date with
    | Except.error e => Except.error e
    | Except.ok _ =>
      if datasource ≠ "auto" ∧ datasource ≠ "tushare" ∧ datasource ≠ "akshare" then
        Except.error ("unknown datasource")
      else if datasource = "auto" ∨ datasource = "tushare" then
        tushareStep datasource tushare_token tushareResult akshareResult
      else akshareStep datasource akshareResult none

/-- BacktestConfig (config.py) with its hard-coded defaults: cash 100000,
commission rate 0.0003, stake 100 shares. -/
structure BacktestConfig where
  cash : ℚ := 100000
  commission : ℚ := 0.0003
  stake : ℤ := 100
deriving DecidableEq

/-- BacktestInputs (run_backtest.py): the user-facing run parameters and
run metadata. -/
structure BacktestInputs where
  symbol : String
  start_date : String
  end_date : String
  take_profit : ℚ
  stop_loss : ℚ
  max_hold_days : ℤ
  cash : ℚ
  run_note : String
  run_id : String
  datasource : String
deriving DecidableEq

/-- BacktestMetrics (run_backtest.py). -/
structure BacktestMetrics where
  total_return : ℚ
  max_drawdown : ℚ
  win_rate : ℚ
  trades : ℕ
  start_cash : ℚ
  end_value : ℚ
deriving DecidableEq

/-- The report assembled at the end of run_backtest (the generated_at
timestamp and run_url environment echo are omitted as pure I/O). -/
structure Report where
  inputs : BacktestInputs
  config : BacktestConfig
  datasource_used : String
  metrics : BacktestMetrics
  trades : List Trade
  equity_curve : List ℚ
deriving DecidableEq

/-- The strategy parameters that run_backtest passes to cerebro.addstrategy:
take_profit, stop_loss and max_hold_days from the inputs, stake from the
config. -/
def paramsOf (inputs : BacktestInputs) (cfg : BacktestConfig) : Params :=
  { take_profit := inputs.take_profit, stop_loss := inputs.stop_loss,
    max_hold_days := inputs.max_hold_days, stake := cfg.stake }

/-- run_backtest (run_backtest.py): load the daily bars (provider outcomes
supplied as explicit arguments, section 9 of the specification), run the
simulation with the config cash, commission and stake, and reduce the
ledger and equity curve to metrics.  The final broker value is the last
equity sample, or the starting cash when no bar was processed. -/
def run_backtest (inputs : BacktestInputs) (cfg : BacktestConfig)
    (tushare_token : Option String) (tushareResult akshareResult : ProviderResult) :
    Except String Report :=
  match load_a_share_daily inputs.symbol inputs.start_date inputs.end_date
      inputs.datasource tushare_token tushareResult akshareResult with
  | Except.error e => Except.error e
  | Except.ok (bars, used) =>
    let strat := simulate (paramsOf inputs cfg) cfg.commission cfg.cash bars
    let start_cash := cfg.cash
    let end_value := (strat.equity.getLast?).getD cfg.cash
    let metrics : BacktestMetrics :=
      { total_return := (end_value - start_cash) / start_cash,
        max_drawdown := calc_max_drawdown strat.equity,
        win_rate := win_rate strat.trades,
        trades := trade_count strat.trades,
        start_cash := start_cash,
        end_value := end_value }
    Except.ok
      { inputs := inputs, config := cfg, datasource_used := used,
        metrics := metrics, trades := strat.trades, equity_curve := strat.equity }

/-- The command-line arguments of main (run_backtest.py), with the argparse
defaults. -/
structure Args where
  symbol : String
  start_date : String
  end_date : String
  take_profit : ℚ := 0.03
  stop_loss : ℚ := -0.05
  max_hold_days : ℤ := 10
  cash : ℚ := 100000
  run_note : String := ""
  run_id : String := ""
  datasource : String := "auto"
deriving DecidableEq

/-- The config constructed by main: BacktestConfig(cash=args.cash) — only
cash is passed, every other field keeps its default. -/
def mainConfig (args : Args) : BacktestConfig :=
  { cash := args.cash }

/-- The inputs constructed by main from the parsed arguments. -/
def mainInputs (args : Args) : BacktestInputs :=
  { symbol := args.symbol, start_date := args.start_date, end_date := args.end_date,
    take_profit := args.take_profit, stop_loss := args.stop_loss,
    max_hold_days := args.max_hold_days, cash := args.cash,
    run_note := args.run_note, run_id := args.run_id, datasource := args.datasource }

/-- main (run_backtest.py): validate the parameters first, then run the
backtest with the config built from args.cash alone. -/
def main (args : Args) (tushare_token : Option String)
    (tushareResult akshareResult : ProviderResult) : Except String Report :=
  match validate_params args.take_profit args.stop_loss args.max_hold_days args.cash
      args.start_date args.end_date with
  | Except.error e => Except.error e
  | Except.ok _ =>
    run_backtest (mainInputs args) (mainConfig args) tushare_token tushareResult akshareResult

/-! ### Concrete scenarios -/

/-- A flat bar at price 100: with the default parameters the stop price 95
and the take price 103 are never touched. -/
def flatBar : Bar := { bopen := 100, high := 100, low := 100, close := 100, volume := 1000 }

/-- The section 8 stop-loss scenario: entry fills at 100 on the second bar,
the third bar stays inside the thresholds, the fourth bar touches the stop
price 95 with its low of 94.9. -/
def c1bars : List Bar :=
  [ { bopen := 100, high := 100.5, low := 99.5, close := 100, volume := 1000 },
    { bopen := 100, high := 101, low := 99, close := 100, volume := 1000 },
    { bopen := 100, high := 101, low := 97, close := 99, volume := 1000 },
    { bopen := 99, high := 103.5, low := 94.9, close := 95.5, volume := 1000 } ]

/-- Eleven flat bars: signal bar, entry fill, then hold_bars reaches 10 on
the eleventh bar and the max-hold exit fires there. -/
def flat11 : List Bar :=
  [flatBar, flatBar, flatBar, flatBar, flatBar, flatBar,
   flatBar, flatBar, flatBar, flatBar, flatBar]

/-- Ten flat bars: hold_bars only reaches 9, so no exit fires and the
position is still open at series end. -/
def flat10 : List Bar :=
  [flatBar, flatBar, flatBar, flatBar, flatBar,
   flatBar, flatBar, flatBar, flatBar, flatBar]

/-- Three flat bars: a valid non-empty series that produces no closed
trade. -/
def flat3 : List Bar := [flatBar, flatBar, flatBar]

/-! ### Helper lemmas about one strategy step -/

theorem strategyNext_stop (p : Params) (comm : ℚ) (bar : Bar) (s : StratState) (e : ℚ)
    (horder : s.order = false) (hpos : s.position ≠ 0) (hentry : s.entry_price = some e)
    (hstop : bar.low ≤ e * (1 + p.stop_loss)) :
    strategyNext p comm bar s =
      sellFill comm e (e * (1 + p.stop_loss))
        { s with hold_bars := s.hold_bars + 1, entry_price := some e,
                 exit_reason := some ("stop_loss") } := by
  simp only [strategyNext, horder, Bool.false_eq_true, if_false, hpos, if_neg, hentry,
    Option.getD_some, if_pos hstop]

theorem strategyNext_take (p : Params) (comm : ℚ) (bar : Bar) (s : StratState) (e : ℚ)
    (horder : s.order = false) (hpos : s.position ≠ 0) (hentry : s.entry_price = some e)
    (hnostop : ¬ bar.low ≤ e * (1 + p.stop_loss))
    (htake : e * (1 + p.take_profit) ≤ bar.high) :
    strategyNext p comm bar s =
      sellFill comm e (e * (1 + p.take_profit))
        { s with hold_bars := s.hold_bars + 1, entry_price := some e,
                 exit_reason := some ("take_profit") } := by
  simp only [strategyNext, horder, Bool.false_eq_true, if_false, hpos, if_neg, hentry,
    Option.getD_some, if_neg hnostop, if_pos htake]

theorem strategyNext_maxhold (p : Params) (comm : ℚ) (bar : Bar) (s : StratState) (e : ℚ)
    (horder : s.order = false) (hpos : s.position ≠ 0) (hentry : s.entry_price = some e)
    (hnostop : ¬ bar.low ≤ e * (1 + p.stop_loss))
    (hnotake : ¬ e * (1 + p.take_profit) ≤ bar.high)
    (hhold : p.max_hold_days ≤ (s.hold_bars : ℤ) + 1) :
    strategyNext p comm bar s =
      sellFill comm e bar.close
        { s with hold_bars := s.hold_bars + 1, entry_price := some e,
                 exit_reason := some ("max_hold_days") } := by
  simp only [strategyNext, horder, Bool.false_eq_true, if_false, hpos, if_neg, hentry,
    Option.getD_some, if_neg hnostop, if_neg hnotake]
  rw [if_pos]
  push_cast
  exact hhold

theorem strategyNext_hold (p : Params) (comm : ℚ) (bar : Bar) (s : StratState) (e : ℚ)
    (horder : s.order = false) (hpos : s.position ≠ 0) (hentry : s.entry_price = some e)
    (hnostop : ¬ bar.low ≤ e * (1 + p.stop_loss))
    (hnotake : ¬ e * (1 + p.take_profit) ≤ bar.high)
    (hhold : (s.hold_bars : ℤ) + 1 < p.max_hold_days) :
    strategyNext p comm bar s =
      { s with hold_bars := s.hold_bars + 1, entry_price := some e } := by
  simp only [strategyNext, horder, Bool.false_eq_true, if_false, hpos, if_neg, hentry,
    Option.getD_some, if_neg hnostop, if_neg hnotake]
  rw [if_neg]
  push_cast
  omega

/-- The three legitimate exit reasons a recorded trade can carry. -/
def validReason (t : Trade) : Prop :=
  t.exit_reason = "stop_loss" ∨ t.exit_reason = "take_profit" ∨ t.exit_reason = "max_hold_days"

theorem execBuy_trades (p : Params) (comm : ℚ) (bar : Bar) (s : StratState) :
    (execBuy p comm bar s).trades = s.trades := by
  unfold execBuy; split <;> rfl

theorem strategyNext_trades_cases (p : Params) (comm : ℚ) (bar : Bar) (s : StratState)
    (t : Trade) (ht : t ∈ (strategyNext p comm bar s).trades) :
    t ∈ s.trades ∨ validReason t := by
  unfold strategyNext at ht
  split_ifs at ht with h1 h2
  · exact Or.inl ht
  · exact Or.inl ht
  · simp only [apply_ite StratState.trades] at ht
    split_ifs at ht with h3 h4 h5
    · simp only [sellFill, mkTrade, List.mem_append, List.mem_singleton] at ht
      rcases ht with h | h
      · exact Or.inl h
      · subst h; right; left; rfl
    · simp only [sellFill, mkTrade, List.mem_append, List.mem_singleton] at ht
      rcases ht with h | h
      · exact Or.inl h
      · subst h; right; right; left; rfl
    · simp only [sellFill, mkTrade, List.mem_append, List.mem_singleton] at ht
      rcases ht with h | h
      · exact Or.inl h
      · subst h; right; right; right; rfl
    · exact Or.inl ht

theorem stepBar_reasons (p : Params) (comm : ℚ) (bar : Bar) (s : StratState) (t : Trade)
    (ht : t ∈ (stepBar p comm bar s).trades) : t ∈ s.trades ∨ validReason t := by
  simp only [stepBar] at ht
  have h := strategyNext_trades_cases p comm bar (execBuy p comm bar s) t ht
  rwa [execBuy_trades] at h

theorem simulate_reasons (p : Params) (comm cash : ℚ) (bars : List Bar) :
    ∀ t ∈ (simulate p comm cash bars).trades, validReason t := by
  suffices h : ∀ s : StratState, (∀ t ∈ s.trades, validReason t) →
      ∀ t ∈ (bars.foldl (fun s b => stepBar p comm b s) s).trades, validReason t by
    exact h _ (by simp [initState])
  induction bars with
  | nil => intro s hs; simpa using hs
  | cons b bs ih =>
    intro s hs
    simp only [List.foldl_cons]
    exact ih _ (fun t ht => (stepBar_reasons p comm b s t ht).elim (hs t) id)

/-! ### Evaluated scenarios (shared helper lemmas) -/

/-- The section 8 stop bar: low 94.9 touches the stop price 95. -/
def stopBar : Bar := { bopen := 99, high := 103.5, low := 94.9, close := 95.5, volume := 1000 }

/-- A bar touching both thresholds at once (stop 95 and take 103 for entry 100). -/
def bothBar : Bar := { bopen := 99, high := 104, low := 94.9, close := 95.5, volume := 1000 }

/-- A bar strictly inside both thresholds for entry 100. -/
def insideBar : Bar := { bopen := 100, high := 101, low := 97, close := 99, volume := 1000 }

/-- The single trade of the section 8 scenario: exit at the stop price 95,
gross pnl -500, commissions 3 + 2.85, net pnl -505.85. -/
def c1trade : Trade :=
  { pnl := -500, pnlcomm := -505.85, size := 100, price := 100, value := 10000,
    commission := 5.85, exit_reason := "stop_loss", exit_price := 95 }

/-- The single trade of the flat 11-bar max-hold scenario. -/
def holdTrade : Trade :=
  { pnl := 0, pnlcomm := -6, size := 100, price := 100, value := 10000,
    commission := 6, exit_reason := "max_hold_days", exit_price := 100 }

theorem sim_c1bars_trades : (simulate {} 0.0003 100000 c1bars).trades = [c1trade] := by
  norm_num [simulate, c1bars, stepBar, execBuy, strategyNext, sellFill, mkTrade, initState,
    c1trade]

theorem sim_flat11_trades : (simulate {} 0.0003 100000 flat11).trades = [holdTrade] := by
  norm_num [simulate, flat11, flatBar, stepBar, execBuy, strategyNext, sellFill, mkTrade,
    initState, holdTrade]

theorem sim_flat10_state :
    (simulate {} 0.0003 100000 flat10).trades = [] ∧
      (simulate {} 0.0003 100000 flat10).position = 100 := by
  norm_num [simulate, flat10, flatBar, stepBar, execBuy, strategyNext, sellFill, mkTrade,
    initState]

theorem sim_flat3_state :
    (simulate {} 0.0003 100000 flat3).trades = [] ∧
      (simulate {} 0.0003 100000 flat3).position = 100 := by
  norm_num [simulate, flat3, flatBar, stepBar, execBuy, strategyNext, sellFill, mkTrade,
    initState]

/-! ### Claims -/

/-- C1: for every open position and every bar, a bar low at or below the
stop price (entry times one plus stop_loss) exits at fill price equal to
the stop price with reason stop_loss; a bar that only reaches the take
price (entry times one plus take_profit) with its high exits at the take
price with reason take_profit; and in the section 8 scenario (entry 100,
stake 100, stop_loss -0.05, commission 0.0003, bar low 94.9) the single
recorded trade c1trade has exit_price 95, gross pnl -500 and net pnl
-505.85. -/
theorem C1_exit_fill_prices :
    (∀ (p : Params) (comm : ℚ) (bar : Bar) (s : StratState) (e : ℚ),
        s.order = false → s.position ≠ 0 → s.entry_price = some e →
        bar.low ≤ e * (1 + p.stop_loss) →
        ∃ t : Trade, (strategyNext p comm bar s).trades = s.trades ++ [t] ∧
          t.exit_reason = "stop_loss" ∧ t.exit_price = e * (1 + p.stop_loss) ∧
          t.pnl = (e * (1 + p.stop_loss) - e) * (s.position : ℚ)) ∧
    (∀ (p : Params) (comm : ℚ) (bar : Bar) (s : StratState) (e : ℚ),
        s.order = false → s.position ≠ 0 → s.entry_price = some e →
        ¬ bar.low ≤ e * (1 + p.stop_loss) → e * (1 + p.take_profit) ≤ bar.high →
        ∃ t : Trade, (strategyNext p comm bar s).trades = s.trades ++ [t] ∧
          t.exit_reason = "take_profit" ∧ t.exit_price = e * (1 + p.take_profit) ∧
          t.pnl = (e * (1 + p.take_profit) - e) * (s.position : ℚ)) ∧
    ((simulate {} 0.0003 100000 c1bars).trades = [c1trade] ∧
      c1trade.exit_price = 95 ∧ c1trade.pnl = -500 ∧ c1trade.pnlcomm = -505.85 ∧
      c1trade.exit_reason = "stop_loss") := by
  refine ⟨?_, ?_, sim_c1bars_trades, rfl, rfl, rfl, rfl⟩
  · intro p comm bar s e horder hpos hentry hstop
    rw [strategyNext_stop p comm bar s e horder hpos hentry hstop]
    refine ⟨mkTrade comm e (e * (1 + p.stop_loss)) s.position (some ("stop_loss")), ?_, ?_, ?_, ?_⟩
    · simp [sellFill]
    · simp [mkTrade]
    · simp [mkTrade]
    · simp [mkTrade]
  · intro p comm bar s e horder hpos hentry hnostop htake
    rw [strategyNext_take p comm bar s e horder hpos hentry hnostop htake]
    refine ⟨mkTrade comm e (e * (1 + p.take_profit)) s.position (some ("take_profit")), ?_, ?_, ?_, ?_⟩
    · simp [sellFill]
    · simp [mkTrade]
    · simp [mkTrade]
    · simp [mkTrade]

/-- A concrete open state (entry 100, two bars held) used to instantiate the
per-bar claim theorems. -/
def openState100 : StratState :=
  { order := false, entry_price := some 100, hold_bars := 2, exit_reason := none,
    position := 100, cash := 89997, trades := [], equity := [] }

/-- Witness for C1: the stop branch applied to the section 8 stop bar from
the concrete open state. -/
theorem C1_exit_fill_prices_witness :
    ∃ t : Trade, (strategyNext {} 0.0003 stopBar openState100).trades =
        openState100.trades ++ [t] ∧
      t.exit_reason = "stop_loss" ∧
      t.exit_price = 100 * (1 + ({} : Params).stop_loss) ∧
      t.pnl = (100 * (1 + ({} : Params).stop_loss) - 100) * ((openState100.position : ℤ) : ℚ) :=
  C1_exit_fill_prices.1 {} 0.0003 stopBar openState100 100 rfl
    (by norm_num [openState100]) rfl (by norm_num [stopBar])

/-- C2: when a single bar touches both thresholds at once, the stop-loss
check is evaluated first, so the recorded exit reason is stop_loss and
never take_profit. -/
theorem C2_stop_precedence :
    ∀ (p : Params) (comm : ℚ) (bar : Bar) (s : StratState) (e : ℚ),
      s.order = false → s.position ≠ 0 → s.entry_price = some e →
      bar.low ≤ e * (1 + p.stop_loss) → e * (1 + p.take_profit) ≤ bar.high →
      ∃ t : Trade, (strategyNext p comm bar s).trades = s.trades ++ [t] ∧
        t.exit_reason = "stop_loss" ∧ t.exit_reason ≠ "take_profit" := by
  intro p comm bar s e horder hpos hentry hstop _htake
  rw [strategyNext_stop p comm bar s e horder hpos hentry hstop]
  refine ⟨mkTrade comm e (e * (1 + p.stop_loss)) s.position (some ("stop_loss")), ?_, ?_, ?_⟩
  · simp [sellFill]
  · simp [mkTrade]
  · simp [mkTrade]

/-- Witness for C2: a bar whose low touches the stop price and whose high
touches the take price in the same bar. -/
theorem C2_stop_precedence_witness :
    ∃ t : Trade, (strategyNext {} 0.0003 bothBar openState100).trades =
        openState100.trades ++ [t] ∧
      t.exit_reason = "stop_loss" ∧ t.exit_reason ≠ "take_profit" :=
  C2_stop_precedence {} 0.0003 bothBar openState100 100 rfl
    (by norm_num [openState100]) rfl (by norm_num [bothBar]) (by norm_num [bothBar])

/-- C3: every trade in the ledger of a run carries one of the three exit
reasons set by the exit decision that closed it, and never the unknown
placeholder. -/
theorem C3_recorded_reason :
    ∀ (p : Params) (comm cash : ℚ) (bars : List Bar) (t : Trade),
      t ∈ (simulate p comm cash bars).trades →
      validReason t ∧ t.exit_reason ≠ "unknown" := by
  intro p comm cash bars t ht
  have h := simulate_reasons p comm cash bars t ht
  refine ⟨h, ?_⟩
  rcases h with h | h | h <;> rw [h] <;> decide

/-- Witness for C3: the single trade of the section 8 scenario. -/
theorem C3_recorded_reason_witness :
    validReason c1trade ∧ c1trade.exit_reason ≠ "unknown" :=
  C3_recorded_reason {} 0.0003 100000 c1bars c1trade
    (by rw [sim_c1bars_trades]; exact List.mem_singleton.mpr rfl)

/-- C4: hold_bars is incremented before the exit check (an entry fill resets
it to 0 and the same bar is then evaluated with hold_bars 1); when neither
threshold is breached the max-hold exit fires exactly when the incremented
hold count reaches max_hold_days; and with max_hold_days 10 on a flat
series the exit fires on the eleventh bar (hold count 10) while ten bars
(hold count 9) produce no exit and leave the position open. -/
theorem C4_hold_bars_timing :
    (∀ (p : Params) (comm : ℚ) (bar : Bar) (s : StratState),
        s.order = true → (execBuy p comm bar s).hold_bars = 0) ∧
    (∀ (p : Params) (comm : ℚ) (bar : Bar) (s : StratState) (e : ℚ),
        s.order = false → s.position ≠ 0 → s.entry_price = some e →
        ¬ bar.low ≤ e * (1 + p.stop_loss) → ¬ e * (1 + p.take_profit) ≤ bar.high →
        (p.max_hold_days ≤ (s.hold_bars : ℤ) + 1 →
          ∃ t : Trade, (strategyNext p comm bar s).trades = s.trades ++ [t] ∧
            t.exit_reason = "max_hold_days") ∧
        ((s.hold_bars : ℤ) + 1 < p.max_hold_days →
          (strategyNext p comm bar s).trades = s.trades ∧
          (strategyNext p comm bar s).hold_bars = s.hold_bars + 1 ∧
          (strategyNext p comm bar s).position = s.position)) ∧
    (simulate {} 0.0003 100000 flat11).trades = [holdTrade] ∧
    holdTrade.exit_reason = "max_hold_days" ∧
    (simulate {} 0.0003 100000 flat10).trades = [] ∧
    (simulate {} 0.0003 100000 flat10).position = 100 := by
  refine ⟨?_, ?_, sim_flat11_trades, rfl, sim_flat10_state.1, sim_flat10_state.2⟩
  · intro p comm bar s horder
    simp [execBuy, horder]
  · intro p comm bar s e horder hpos hentry hnostop hnotake
    constructor
    · intro hhold
      rw [strategyNext_maxhold p comm bar s e horder hpos hentry hnostop hnotake hhold]
      refine ⟨mkTrade comm e bar.close s.position (some ("max_hold_days")), ?_, ?_⟩
      · simp [sellFill]
      · simp [mkTrade]
    · intro hhold
      rw [strategyNext_hold p comm bar s e horder hpos hentry hnostop hnotake hhold]
      exact ⟨rfl, rfl, rfl⟩

/-- Witness for C4: the entry fill resets hold_bars, and the concrete open
state held for two bars neither exits nor miscounts on an inside bar. -/
theorem C4_hold_bars_timing_witness :
    (execBuy {} 0.0003 flatBar { openState100 with order := true }).hold_bars = 0 ∧
      ((strategyNext {} 0.0003 insideBar openState100).trades = openState100.trades ∧
        (strategyNext {} 0.0003 insideBar openState100).hold_bars =
          openState100.hold_bars + 1 ∧
        (strategyNext {} 0.0003 insideBar openState100).position = openState100.position) :=
  ⟨C4_hold_bars_timing.1 {} 0.0003 flatBar { openState100 with order := true } rfl,
    (C4_hold_bars_timing.2.1 {} 0.0003 insideBar openState100 100 rfl
        (by norm_num [openState100]) rfl (by norm_num [insideBar]) (by norm_num [insideBar])).2
      (by norm_num [openState100])⟩

/-! ### Max drawdown lemmas -/

theorem maxDrawdownLoop_le (l : List ℚ) :
    ∀ peak m : ℚ, maxDrawdownLoop l peak m ≤ m := by
  induction l with
  | nil => intro peak m; exact le_refl m
  | cons v rest ih =>
    intro peak m
    show maxDrawdownLoop rest _ _ ≤ m
    set peak2 := if peak < v then v else peak with hpeak2def
    set dd := (v - peak2) / peak2 with hdddef
    refine le_trans (ih peak2 _) ?_
    by_cases h : dd < m
    · rw [if_pos h]; exact le_of_lt h
    · rw [if_neg h]

theorem maxDrawdownLoop_nondecr (l : List ℚ) :
    ∀ peak : ℚ, l.Chain' (· ≤ ·) → (∀ x ∈ l.head?, peak ≤ x) →
      maxDrawdownLoop l peak 0 = 0 := by
  induction l with
  | nil => intro peak _ _; rfl
  | cons v rest ih =>
    intro peak hchain hhead
    have hpv : peak ≤ v := hhead v rfl
    have hpeak2 : (if peak < v then v else peak) = v := by
      split_ifs with h
      · rfl
      · exact le_antisymm hpv (not_lt.mp h)
    show maxDrawdownLoop rest _ _ = 0
    rw [hpeak2]
    have hdd : (v - v) / v = 0 := by simp
    rw [hdd, if_neg (lt_irrefl 0)]
    rw [List.chain'_cons'] at hchain
    exact ih v hchain.2 hchain.1

theorem maxDrawdownLoop_viol (l : List ℚ) :
    ∀ peak m : ℚ, 0 < peak → m ≤ 0 → ¬ l.Chain' (· ≤ ·) →
      maxDrawdownLoop l peak m < 0 := by
  induction l with
  | nil => intro peak m _ _ hc; exact absurd List.chain'_nil hc
  | cons v rest ih =>
    intro peak m hpeak hm hc
    show maxDrawdownLoop rest _ _ < 0
    set peak2 := if peak < v then v else peak with hpeak2def
    have hpeak2 : 0 < peak2 := by
      rw [hpeak2def]
      split_ifs with h
      · exact lt_trans hpeak h
      · exact hpeak
    set dd := (v - peak2) / peak2 with hdddef
    set m2 := if dd < m then dd else m with hm2def
    have hm2 : m2 ≤ 0 := by
      rw [hm2def]
      split_ifs with h
      · exact le_of_lt (lt_of_lt_of_le h hm)
      · exact hm
    by_cases hcr : rest.Chain' (· ≤ ·)
    · have hhead : ¬ (∀ x ∈ rest.head?, v ≤ x) := by
        intro hall
        exact hc (List.chain'_cons'.mpr ⟨hall, hcr⟩)
      rcases rest with - | ⟨w, rest2⟩
      · exact absurd (fun x hx => by cases hx) hhead
      · have hwv : w < v := by
          by_contra hnw
          exact hhead (fun x hx => by cases hx; exact not_lt.mp hnw)
        have hvle : v ≤ peak2 := by
          rw [hpeak2def]
          split_ifs with h
          · exact le_refl v
          · exact not_lt.mp h
        have hnlt : ¬ peak2 < w := not_lt.mpr (le_trans (le_of_lt hwv) hvle)
        show maxDrawdownLoop rest2 _ _ < 0
        rw [if_neg hnlt]
        have hdd2 : (w - peak2) / peak2 < 0 :=
          div_neg_of_neg_of_pos (sub_neg.mpr (lt_of_lt_of_le hwv hvle)) hpeak2
        refine lt_of_le_of_lt (maxDrawdownLoop_le rest2 _ _) ?_
        by_cases h : (w - peak2) / peak2 < m2
        · rw [if_pos h]; exact hdd2
        · rw [if_neg h]; exact lt_of_le_of_lt (not_lt.mp h) hdd2
    · exact ih peak2 m2 hpeak2 hm2 hcr

/-- C5 counterexample: the all-negative declining curve [-1, -2] is not
non-decreasing, yet the running-peak pass returns exactly 0 (every
candidate drawdown (v - peak) / peak is positive there because the peak is
negative, so the accumulator never moves off 0), refuting the claimed
equivalence for arbitrary non-empty curves. -/
theorem C5_max_drawdown_counterexample :
    calc_max_drawdown [-1, -2] = 0 ∧
      ¬ List.Chain' (· ≤ ·) [(-1 : ℚ), -2] := by
  constructor
  · norm_num [calc_max_drawdown, maxDrawdownLoop]
  · norm_num [List.chain'_cons]

/-- C5 (amended): the empty curve yields 0, every curve yields a value at
most 0, the non-empty computation is exactly the running-peak single pass
initialised at the first sample, and for curves whose first sample is
positive the result is 0 exactly when the curve is non-decreasing (without
the positivity restriction the equivalence fails, as the counterexample
shows). -/
theorem C5_max_drawdown_spec :
    calc_max_drawdown [] = 0 ∧
    (∀ l : List ℚ, calc_max_drawdown l ≤ 0) ∧
    (∀ (v : ℚ) (l : List ℚ), calc_max_drawdown (v :: l) = maxDrawdownLoop (v :: l) v 0) ∧
    (∀ (v : ℚ) (l : List ℚ), 0 < v →
      (calc_max_drawdown (v :: l) = 0 ↔ List.Chain' (· ≤ ·) (v :: l))) := by
  refine ⟨rfl, ?_, fun v l => rfl, ?_⟩
  · intro l
    rcases l with - | ⟨v, rest⟩
    · exact le_refl 0
    · exact maxDrawdownLoop_le (v :: rest) v 0
  · intro v l hv
    constructor
    · intro h0
      by_contra hc
      exact absurd h0 (ne_of_lt (maxDrawdownLoop_viol (v :: l) v 0 hv (le_refl 0) hc))
    · intro hchain
      exact maxDrawdownLoop_nondecr (v :: l) v hchain (fun x hx => by cases hx; exact le_refl v)

/-- Witness for C5: a positive non-decreasing curve evaluates to 0 through
the amended equivalence. -/
theorem C5_max_drawdown_spec_witness :
    calc_max_drawdown [(1 : ℚ), 2, 3] = 0 :=
  (C5_max_drawdown_spec.2.2.2 1 [2, 3] one_pos).mpr (by norm_num [List.chain'_cons])

/-- C6: the win rate is the count of trades with strictly positive net pnl
over the number of closed trades, 0 on an empty ledger with no division
error; the report metrics agree with these reductions of the report ledger;
and a run whose position is still open at series end records no trade. -/
theorem C6_win_rate_trade_count :
    (win_rate [] = 0 ∧ trade_count [] = 0) ∧
    (∀ ts : List Trade, ts ≠ [] →
      win_rate ts = ((ts.countP fun t => decide (0 < t.pnlcomm)) : ℚ) / (ts.length : ℚ)) ∧
    (∀ (inputs : BacktestInputs) (cfg : BacktestConfig) (tok : Option String)
        (tu ak : ProviderResult) (r : Report),
      run_backtest inputs cfg tok tu ak = Except.ok r →
      r.metrics.win_rate = win_rate r.trades ∧ r.metrics.trades = trade_count r.trades) ∧
    ((simulate {} 0.0003 100000 flat3).trades = [] ∧
      (simulate {} 0.0003 100000 flat3).position = 100) := by
  refine ⟨⟨rfl, rfl⟩, ?_, ?_, sim_flat3_state⟩
  · intro ts hne
    rw [win_rate]
    rw [if_pos (by simpa [List.length_eq_zero] using hne)]
  · intro inputs cfg tok tu ak r hr
    rw [run_backtest] at hr
    cases hload : load_a_share_daily inputs.symbol inputs.start_date inputs.end_date
        inputs.datasource tok tu ak with
    | error e => rw [hload] at hr; cases hr
    | ok val =>
      obtain ⟨bars, used⟩ := val
      rw [hload] at hr
      cases hr
      exact ⟨rfl, rfl⟩

/-- Witness for C6: the win-rate formula applied to the singleton ledger of
the section 8 scenario. -/
theorem C6_win_rate_trade_count_witness :
    win_rate [c1trade] =
      (([c1trade].countP fun t => decide (0 < t.pnlcomm)) : ℚ) / (([c1trade] : List Trade).length : ℚ) :=
  C6_win_rate_trade_count.2.1 [c1trade] (by simp)

/-! ### Validation lemmas -/

theorem validate_params_ok_iff (tp sl : ℚ) (mhd : ℤ) (cash : ℚ) (sd ed : String) :
    isOkE (validate_params tp sl mhd cash sd ed) = true ↔
      (0 < tp ∧ sl < 0 ∧ 1 ≤ mhd ∧ mhd ≤ 200 ∧ 0 < cash ∧
        ∃ a b, parseDate sd = some a ∧ parseDate ed = some b ∧ dateLt a b = true) := by
  rw [validate_params]
  by_cases h1 : tp ≤ 0
  · rw [if_pos h1]
    simp only [isOkE, Bool.false_eq_true, false_iff]
    rintro ⟨h, -⟩
    exact absurd h (not_lt.mpr h1)
  rw [if_neg h1]
  by_cases h2 : 0 ≤ sl
  · rw [if_pos h2]
    simp only [isOkE, Bool.false_eq_true, false_iff]
    rintro ⟨-, h, -⟩
    exact absurd h2 (not_le.mpr h)
  rw [if_neg h2]
  by_cases h3 : 1 ≤ mhd ∧ mhd ≤ 200
  case neg =>
    rw [if_pos h3]
    simp only [isOkE, Bool.false_eq_true, false_iff]
    rintro ⟨-, -, ha, hb, -⟩
    exact h3 ⟨ha, hb⟩
  rw [if_neg (not_not_intro h3)]
  by_cases h4 : cash ≤ 0
  · rw [if_pos h4]
    simp only [isOkE, Bool.false_eq_true, false_iff]
    rintro ⟨-, -, -, -, h, -⟩
    exact absurd h (not_lt.mpr h4)
  rw [if_neg h4]
  push_neg at h1 h2 h4
  cases hs : parseDate sd with
  | none => simp [isOkE, hs]
  | some a =>
    cases he : parseDate ed with
    | none => simp [isOkE, hs, he]
    | some b =>
      by_cases hd : dateLt a b
      · simp [isOkE, hs, he, hd, h1, h2, h3.1, h3.2, h4]
      · simp [isOkE, hs, he, hd]

theorem normalize_symbol_ok_iff (sym : String) :
    isOkE (normalize_symbol sym) = true ↔
      ((pyStrip sym).length = 6 ∧ (pyStrip sym).data.all Char.isDigit = true) := by
  rw [normalize_symbol]
  split_ifs with h
  · simp only [isOkE, Bool.false_eq_true, false_iff]
    intro hc
    rcases h with h | h
    · exact h hc.1
    · exact h hc.2
  · push_neg at h
    simp [isOkE, h.1, h.2]

/-- C7 counterexample: the symbol " 600519 " is not exactly six digits (it
is eight characters, two of them spaces), yet validation accepts it,
because normalize_symbol strips surrounding whitespace before the six-digit
check.  This refutes the claim that every symbol that is not exactly six
digits is rejected. -/
theorem C7_validation_counterexample :
    normalize_symbol (" 600519 ") = Except.ok ("600519") ∧
      ¬ ((" 600519 ").length = 6 ∧ (" 600519 ").data.all Char.isDigit = true) :=
  ⟨rfl, by decide⟩

/-- C7 (amended): parameter validation succeeds exactly when take_profit is
positive, stop_loss negative, max_hold_days within 1..200, cash positive,
both dates parse as YYYY-MM-DD and start_date is strictly before end_date;
symbol validation succeeds exactly when the whitespace-stripped symbol (not
necessarily the raw symbol) is exactly six digits; and a validation error
makes the entry point fail with that error before any simulation work. -/
theorem C7_validation :
    (∀ (tp sl : ℚ) (mhd : ℤ) (cash : ℚ) (sd ed : String),
      isOkE (validate_params tp sl mhd cash sd ed) = true ↔
        (0 < tp ∧ sl < 0 ∧ 1 ≤ mhd ∧ mhd ≤ 200 ∧ 0 < cash ∧
          ∃ a b, parseDate sd = some a ∧ parseDate ed = some b ∧ dateLt a b = true)) ∧
    (∀ sym : String, isOkE (normalize_symbol sym) = true ↔
      ((pyStrip sym).length = 6 ∧ (pyStrip sym).data.all Char.isDigit = true)) ∧
    (∀ (args : Args) (tok : Option String) (tu ak : ProviderResult) (e : String),
      validate_params args.take_profit args.stop_loss args.max_hold_days args.cash
          args.start_date args.end_date = Except.error e →
      main args tok tu ak = Except.error e) := by
  refine ⟨validate_params_ok_iff, normalize_symbol_ok_iff, ?_⟩
  intro args tok tu ak e h
  rw [main, h]

/-- Arguments with an invalid (non-positive) take_profit. -/
def badArgs : Args :=
  { symbol := "600519", start_date := "2023-01-01", end_date := "2023-06-30",
    take_profit := -1 }

/-- Witness for C7: the run with a non-positive take_profit fails up front
with the error naming take_profit. -/
theorem C7_validation_witness :
    main badArgs none (ProviderResult.ok []) (ProviderResult.ok []) =
      Except.error ("take_profit must be > 0") :=
  C7_validation.2.2 badArgs none (ProviderResult.ok []) (ProviderResult.ok []) _
    (by norm_num [validate_params, badArgs])

/-! ### Data loading lemmas -/

/-- A provider attempt that cannot supply data: every successful outcome it
reports is an empty series (this covers both the empty-dataframe case and
the raised-exception case). -/
def providerDead (r : ProviderResult) : Prop :=
  ∀ bars, r = ProviderResult.ok bars → bars = []

theorem isOkE_finalErr (last : Option String) : isOkE (finalErr last) = false := by
  cases last <;> rfl

theorem finalErr_ne_ok (last : Option String) (bars : List Bar) (src : String) :
    ¬ finalErr last = Except.ok (bars, src) := by
  cases last <;> intro h <;> cases h

theorem akshareStep_ok_nonempty (ds : String) (ak : ProviderResult) (last : Option String)
    (bars : List Bar) (src : String)
    (h : akshareStep ds ak last = Except.ok (bars, src)) : bars ≠ [] := by
  rw [akshareStep.eq_def] at h
  by_cases h1 : ds = "auto" ∨ ds = "akshare"
  · rw [if_pos h1] at h
    cases ak with
    | ok bs =>
      dsimp only at h
      by_cases h2 : bs ≠ []
      · rw [if_pos h2] at h
        simp only [Except.ok.injEq, Prod.mk.injEq] at h
        obtain ⟨hb, -⟩ := h
        subst hb
        exact h2
      · rw [if_neg h2] at h
        exact absurd h (finalErr_ne_ok last bars src)
    | err m =>
      exact absurd h (finalErr_ne_ok (some m) bars src)
  · rw [if_neg h1] at h
    exact absurd h (finalErr_ne_ok last bars src)

theorem akshareStep_dead (ds : String) (ak : ProviderResult) (last : Option String)
    (hak : providerDead ak) : isOkE (akshareStep ds ak last) = false := by
  rw [akshareStep.eq_def]
  by_cases h1 : ds = "auto" ∨ ds = "akshare"
  · rw [if_pos h1]
    cases hak2 : ak with
    | ok bs =>
      have hb : bs = [] := hak bs hak2
      dsimp only
      rw [if_neg (not_not_intro hb)]
      exact isOkE_finalErr last
    | err m => exact isOkE_finalErr (some m)
  · rw [if_neg h1]
    exact isOkE_finalErr last

theorem tushareStep_ok_nonempty (ds : String) (tok : Option String)
    (tu ak : ProviderResult) (bars : List Bar) (src : String)
    (h : tushareStep ds tok tu ak = Except.ok (bars, src)) : bars ≠ [] := by
  rw [tushareStep.eq_def] at h
  cases tok with
  | none =>
    dsimp only at h
    by_cases hforce : ds = "tushare"
    · rw [if_pos hforce] at h
      cases h
    · rw [if_neg hforce] at h
      exact akshareStep_ok_nonempty ds ak none bars src h
  | some t0 =>
    dsimp only at h
    cases tu with
    | ok bs =>
      dsimp only at h
      by_cases hne : bs ≠ []
      · rw [if_pos hne] at h
        simp only [Except.ok.injEq, Prod.mk.injEq] at h
        obtain ⟨hb, -⟩ := h
        subst hb
        exact hne
      · rw [if_neg hne] at h
        exact akshareStep_ok_nonempty ds ak none bars src h
    | err m =>
      exact akshareStep_ok_nonempty ds ak (some m) bars src h

theorem tushareStep_dead (ds : String) (tok : Option String) (tu ak : ProviderResult)
    (htu : providerDead tu) (hak : providerDead ak) :
    isOkE (tushareStep ds tok tu ak) = false := by
  rw [tushareStep.eq_def]
  cases tok with
  | none =>
    dsimp only
    by_cases hforce : ds = "tushare"
    · rw [if_pos hforce]
      rfl
    · rw [if_neg hforce]
      exact akshareStep_dead ds ak none hak
  | some t0 =>
    dsimp only
    cases htu2 : tu with
    | ok bs =>
      have hb : bs = [] := htu bs htu2
      dsimp only
      rw [if_neg (not_not_intro hb)]
      exact akshareStep_dead ds ak none hak
    | err m =>
      exact akshareStep_dead ds ak (some m) hak

theorem load_ok_nonempty (sym sd ed ds : String) (tok : Option String)
    (tu ak : ProviderResult) (bars : List Bar) (src : String)
    (h : load_a_share_daily sym sd ed ds tok tu ak = Except.ok (bars, src)) :
    bars ≠ [] := by
  rw [load_a_share_daily.eq_def] at h
  cases hn : normalize_symbol sym with
  | error e => rw [hn] at h; cases h
  | ok s0 =>
    rw [hn] at h
    dsimp only at h
    cases hv : validate_dates sd ed with
    | error e => rw [hv] at h; cases h
    | ok u =>
      rw [hv] at h
      dsimp only at h
      by_cases hbad : ds ≠ "auto" ∧ ds ≠ "tushare" ∧ ds ≠ "akshare"
      · rw [if_pos hbad] at h
        cases h
      · rw [if_neg hbad] at h
        by_cases hds : ds = "auto" ∨ ds = "tushare"
        · rw [if_pos hds] at h
          exact tushareStep_ok_nonempty ds tok tu ak bars src h
        · rw [if_neg hds] at h
          exact akshareStep_ok_nonempty ds ak none bars src h

theorem load_all_dead (sym sd ed ds : String) (tok : Option String)
    (tu ak : ProviderResult) (htu : providerDead tu) (hak : providerDead ak) :
    isOkE (load_a_share_daily sym sd ed ds tok tu ak) = false := by
  rw [load_a_share_daily.eq_def]
  cases hn : normalize_symbol sym with
  | error e => rfl
  | ok s0 =>
    dsimp only
    cases hv : validate_dates sd ed with
    | error e => rfl
    | ok u =>
      dsimp only
      by_cases hbad : ds ≠ "auto" ∧ ds ≠ "tushare" ∧ ds ≠ "akshare"
      · rw [if_pos hbad]
        rfl
      · rw [if_neg hbad]
        by_cases hds : ds = "auto" ∨ ds = "tushare"
        · rw [if_pos hds]
          exact tushareStep_dead ds tok tu ak htu hak
        · rw [if_neg hds]
          exact akshareStep_dead ds ak none hak

/-- Valid inputs (six-digit symbol, ordered dates) forcing the akshare
provider. -/
def c8inputs : BacktestInputs :=
  { symbol := "600519", start_date := "2023-01-01", end_date := "2023-06-30",
    take_profit := 0.03, stop_loss := -0.05, max_hold_days := 10, cash := 100000,
    run_note := "", run_id := "", datasource := "akshare" }

/-- C8: a successful data load never returns an empty series (so an empty
upstream series cannot silently become a zero-trade report); when every
applicable provider returns empty data or fails, the load errors out; and a
valid non-empty series that merely produces no trades yields a successful
run with an empty ledger. -/
theorem C8_data_unavailable :
    (∀ (sym sd ed ds : String) (tok : Option String) (tu ak : ProviderResult)
        (bars : List Bar) (src : String),
      load_a_share_daily sym sd ed ds tok tu ak = Except.ok (bars, src) → bars ≠ []) ∧
    (∀ (sym sd ed ds : String) (tok : Option String) (tu ak : ProviderResult),
      providerDead tu → providerDead ak →
      isOkE (load_a_share_daily sym sd ed ds tok tu ak) = false) ∧
    (run_backtest c8inputs {} none (ProviderResult.ok []) (ProviderResult.ok flat3)).map
        Report.trades = Except.ok ([] : List Trade) := by
  refine ⟨load_ok_nonempty, load_all_dead, ?_⟩
  have hload : load_a_share_daily c8inputs.symbol c8inputs.start_date c8inputs.end_date
      c8inputs.datasource none (ProviderResult.ok []) (ProviderResult.ok flat3) =
      Except.ok (flat3, "akshare") := rfl
  rw [run_backtest, hload]
  show Except.ok _ = _
  rw [Except.ok.injEq]
  exact sim_flat3_state.1

/-- Witness for C8: the successful load of the three-bar flat series is
non-empty. -/
theorem C8_data_unavailable_witness : flat3 ≠ ([] : List Bar) :=
  C8_data_unavailable.1 ("600519") ("2023-01-01") ("2023-06-30") ("akshare") none
    (ProviderResult.ok []) (ProviderResult.ok flat3) flat3 ("akshare") rfl

/-- C9: the simulation is a pure function of the series and parameters:
two runs started from independently built initial states produce the same
final state; re-running the driver on equal inputs gives equal results; and
the run metadata (run_note, run_id), the only inputs allowed to differ
between queued runs on the same data, leave the trade ledger and the equity
curve unchanged. -/
theorem C9_deterministic :
    (∀ (p : Params) (comm cash : ℚ) (bars : List Bar) (s1 s2 : StratState),
      s1 = initState cash → s2 = initState cash →
      bars.foldl (fun s b => stepBar p comm b s) s1 =
        bars.foldl (fun s b => stepBar p comm b s) s2) ∧
    (∀ (inputs : BacktestInputs) (cfg : BacktestConfig) (tok : Option String)
        (tu ak : ProviderResult),
      run_backtest inputs cfg tok tu ak = run_backtest inputs cfg tok tu ak) ∧
    (∀ (i : BacktestInputs) (n1 id1 n2 id2 : String) (cfg : BacktestConfig)
        (tok : Option String) (tu ak : ProviderResult),
      (run_backtest { i with run_note := n1, run_id := id1 } cfg tok tu ak).map
          Report.trades =
        (run_backtest { i with run_note := n2, run_id := id2 } cfg tok tu ak).map
          Report.trades ∧
      (run_backtest { i with run_note := n1, run_id := id1 } cfg tok tu ak).map
          Report.equity_curve =
        (run_backtest { i with run_note := n2, run_id := id2 } cfg tok tu ak).map
          Report.equity_curve) := by
  refine ⟨?_, fun inputs cfg tok tu ak => rfl, ?_⟩
  · intro p comm cash bars s1 s2 h1 h2
    rw [h1, h2]
  · intro i n1 id1 n2 id2 cfg tok tu ak
    cases hload : load_a_share_daily i.symbol i.start_date i.end_date i.datasource tok tu ak with
    | error e =>
      constructor <;> simp [run_backtest, hload, Except.map]
    | ok val =>
      obtain ⟨bars, used⟩ := val
      constructor <;> simp [run_backtest, hload, paramsOf, Except.map]

/-- Witness for C9: the two independently initialised folds over the
section 8 series agree. -/
theorem C9_deterministic_witness :
    c1bars.foldl (fun s b => stepBar {} 0.0003 b s) (initState 100000) =
      c1bars.foldl (fun s b => stepBar {} 0.0003 b s) (initState 100000) :=
  C9_deterministic.1 {} 0.0003 100000 c1bars (initState 100000) (initState 100000) rfl rfl

/-- C10: the entry point builds its config from the cash argument alone, so
the commission rate is always the hard-coded 0.0003 and the stake passed to
the strategy is always the hard-coded 100 shares, whatever the other
user-supplied arguments are. -/
theorem C10_hardcoded_config :
    ∀ args : Args,
      (mainConfig args).commission = 0.0003 ∧
      (mainConfig args).stake = 100 ∧
      (mainConfig args).cash = args.cash ∧
      ∀ i : BacktestInputs, (paramsOf i (mainConfig args)).stake = 100 :=
  fun _args => ⟨rfl, rfl, rfl, fun _i => rfl⟩

end Backtest
